import Mathlib

set_option maxRecDepth 20000

/-!
Verification of the LTC6811 daisy-chain driver (src/LTC6811.h, src/LTC6811.cpp).

The development shallowly embeds the protocol/codec and decision-engine layer:
the PEC15 CRC codec, the conversion-command builder, the register-group read
validation, the voltage status aggregation, and the three cell-balancing
policies of BuildDischargeConfig.  Machine integers are modelled as `Nat`
(resp. `Int` where the C++ performs signed arithmetic), with explicit
truncation (`% 256`, `% 65536`) exactly where the C++ types truncate.
Fallible operations (SPI transactions, array accesses guarded by the
12-element daisy-chain bound) are modelled with `Option`/`Bool` results.
-/

/-! ### PEC15 codec (src/LTC6811.h, lines 174-205) -/

/-- The vendor CRC-15 lookup table `crc15Table` (src/LTC6811.h lines 174-191),
reproduced entry for entry. -/
def crc15Table : List Nat := [
  0x0000, 0xc599, 0xceab, 0x0b32, 0xd8cf, 0x1d56, 0x1664, 0xd3fd,
  0xf407, 0x319e, 0x3aac, 0xff35, 0x2cc8, 0xe951, 0xe263, 0x27fa,
  0xad97, 0x680e, 0x633c, 0xa6a5, 0x7558, 0xb0c1, 0xbbf3, 0x7e6a,
  0x5990, 0x9c09, 0x973b, 0x52a2, 0x815f, 0x44c6, 0x4ff4, 0x8a6d,
  0x5b2e, 0x9eb7, 0x9585, 0x501c, 0x83e1, 0x4678, 0x4d4a, 0x88d3,
  0xaf29, 0x6ab0, 0x6182, 0xa41b, 0x77e6, 0xb27f, 0xb94d, 0x7cd4,
  0xf6b9, 0x3320, 0x3812, 0xfd8b, 0x2e76, 0xebef, 0xe0dd, 0x2544,
  0x02be, 0xc727, 0xcc15, 0x098c, 0xda71, 0x1fe8, 0x14da, 0xd143,
  0xf3c5, 0x365c, 0x3d6e, 0xf8f7, 0x2b0a, 0xee93, 0xe5a1, 0x2038,
  0x07c2, 0xc25b, 0xc969, 0x0cf0, 0xdf0d, 0x1a94, 0x11a6, 0xd43f,
  0x5e52, 0x9bcb, 0x90f9, 0x5560, 0x869d, 0x4304, 0x4836, 0x8daf,
  0xaa55, 0x6fcc, 0x64fe, 0xa167, 0x729a, 0xb703, 0xbc31, 0x79a8,
  0xa8eb, 0x6d72, 0x6640, 0xa3d9, 0x7024, 0xb5bd, 0xbe8f, 0x7b16,
  0x5cec, 0x9975, 0x9247, 0x57de, 0x8423, 0x41ba, 0x4a88, 0x8f11,
  0x057c, 0xc0e5, 0xcbd7, 0x0e4e, 0xddb3, 0x182a, 0x1318, 0xd681,
  0xf17b, 0x34e2, 0x3fd0, 0xfa49, 0x29b4, 0xec2d, 0xe71f, 0x2286,
  0xa213, 0x678a, 0x6cb8, 0xa921, 0x7adc, 0xbf45, 0xb477, 0x71ee,
  0x5614, 0x938d, 0x98bf, 0x5d26, 0x8edb, 0x4b42, 0x4070, 0x85e9,
  0x0f84, 0xca1d, 0xc12f, 0x04b6, 0xd74b, 0x12d2, 0x19e0, 0xdc79,
  0xfb83, 0x3e1a, 0x3528, 0xf0b1, 0x234c, 0xe6d5, 0xede7, 0x287e,
  0xf93d, 0x3ca4, 0x3796, 0xf20f, 0x21f2, 0xe46b, 0xef59, 0x2ac0,
  0x0d3a, 0xc8a3, 0xc391, 0x0608, 0xd5f5, 0x106c, 0x1b5e, 0xdec7,
  0x54aa, 0x9133, 0x9a01, 0x5f98, 0x8c65, 0x49fc, 0x42ce, 0x8757,
  0xa0ad, 0x6534, 0x6e06, 0xab9f, 0x7862, 0xbdfb, 0xb6c9, 0x7350,
  0x51d6, 0x944f, 0x9f7d, 0x5ae4, 0x8919, 0x4c80, 0x47b2, 0x822b,
  0xa5d1, 0x6048, 0x6b7a, 0xaee3, 0x7d1e, 0xb887, 0xb3b5, 0x762c,
  0xfc41, 0x39d8, 0x32ea, 0xf773, 0x248e, 0xe117, 0xea25, 0x2fbc,
  0x0846, 0xcddf, 0xc6ed, 0x0374, 0xd089, 0x1510, 0x1e22, 0xdbbb,
  0x0af8, 0xcf61, 0xc453, 0x01ca, 0xd237, 0x17ae, 0x1c9c, 0xd905,
  0xfeff, 0x3b66, 0x3054, 0xf5cd, 0x2630, 0xe3a9, 0xe89b, 0x2d02,
  0xa76f, 0x62f6, 0x69c4, 0xac5d, 0x7fa0, 0xba39, 0xb10b, 0x7492,
  0x5368, 0x96f1, 0x9dc3, 0x585a, 0x8ba7, 0x4e3e, 0x450c, 0x8095
]

/-- One iteration of the `PEC15Calc` loop (src/LTC6811.h lines 199-202):
`addr = (PEC >> 7 ^ byte) & 0xFF; PEC = PEC << 8 ^ crc15Table[addr]`, with
the assignment to the `uint16_t` variable `PEC` truncating modulo `2^16`. -/
def pecStep (acc b : Nat) : Nat :=
  ((acc <<< 8) ^^^ crc15Table.getD (((acc >>> 7) ^^^ b) &&& 0xFF) 0) % 65536

/-- Embedding of `LTC6811::PEC15Calc` (src/LTC6811.h lines 194-205) on a byte
sequence: accumulator initialised to 16, one `pecStep` per byte, and the final
value shifted left one bit into the `uint16_t` return value. -/
def PEC15Calc (bytes : List Nat) : Nat :=
  ((bytes.foldl pecStep 16) <<< 1) % 65536

/-- Recursive loop of `pec15Spec` below, written from the specification text:
"for each input byte set index = ((accumulator >> 7) XOR byte) & 0xFF and
accumulator = (accumulator << 8) XOR table[index]; then return the accumulator
shifted left by 1 bit", with a 16-bit accumulator. -/
def pec15SpecLoop (acc : Nat) : List Nat → Nat
  | [] => (acc <<< 1) % 65536
  | b :: rest =>
      pec15SpecLoop
        (((acc <<< 8) ^^^ crc15Table.getD (((acc >>> 7) ^^^ b) &&& 0xFF) 0) % 65536)
        rest

/-- Modelled from the spec: the claimed PEC15 algorithm, a 16-bit accumulator
initialised to 16, iterated over the input bytes with the fixed 256-entry
vendor table, and finally shifted left by one bit. -/
def pec15Spec (bytes : List Nat) : Nat :=
  pec15SpecLoop 16 bytes

/-! ### Voltage status aggregation (src/LTC6811.cpp, lines 117-144) -/

/-- Embedding of `LTC6811VoltageStatus` (src/LTC6811.h lines 47-53).  The
default initialiser sets `min` to the largest `uint16_t` value, `max` to the
smallest, and everything else to zero. -/
structure LTC6811VoltageStatus where
  sum : Nat
  min : Nat
  min_id : Nat
  max : Nat
  max_id : Nat
deriving Repr, DecidableEq

/-- The zero-initialised `LTC6811VoltageStatus{}` of `GetVoltageStatus`:
`sum = 0`, `min = numeric_limits<uint16_t>::max() = 65535`, `min_id = 0`,
`max = numeric_limits<uint16_t>::min() = 0`, `max_id = 0`. -/
def initVStatus : LTC6811VoltageStatus :=
  { sum := 0, min := 65535, min_id := 0, max := 0, max_id := 0 }

/-- The body of the aggregation loop of `GetVoltageStatus`
(src/LTC6811.cpp lines 130-138): add the voltage to `sum`; if it is strictly
below the running `min` update `min`/`min_id`, otherwise (`else if`) if it is
strictly above the running `max` update `max`/`max_id`. -/
def vstep (count v : Nat) (s : LTC6811VoltageStatus) : LTC6811VoltageStatus :=
  if v < s.min then
    { s with sum := s.sum + v, min := v, min_id := count }
  else if s.max < v then
    { s with sum := s.sum + v, max := v, max_id := count }
  else
    { s with sum := s.sum + v }

/-- The aggregation loop of `GetVoltageStatus` run from an arbitrary
intermediate status `s` and counter `count` over the remaining readings. -/
def vscanFrom (s : LTC6811VoltageStatus) (count : Nat) : List Nat → LTC6811VoltageStatus
  | [] => s
  | v :: rest => vscanFrom (vstep count v s) (count + 1) rest

/-- The full aggregation pass of `GetVoltageStatus` over the flattened list of
cell readings, starting from the default-initialised status and `count = 0`. -/
def voltageScan (vs : List Nat) : LTC6811VoltageStatus :=
  vscanFrom initVStatus 0 vs

/-- The flattening order of the triple loop in `GetVoltageStatus`
(src/LTC6811.cpp lines 127-142): outer loop over the four register groups of
`cell_data`, middle loop over the twelve registers (one per device in the
daisy chain), inner loop over the three voltages of a register.  `cell g d p`
abstracts `cell_data[g].register_group[d].data[p]`. -/
def flattenCells (cell : Nat → Nat → Nat → Nat) : List Nat :=
  ((List.range 4).map (fun g =>
    ((List.range 12).map (fun d =>
      (List.range 3).map (fun p => cell g d p))).flatten)).flatten

/-- Modelled from the claim C4 wording: a flattening with register groups as
the outer index, position-in-register 0..2 as the middle index, and device
0..11 as the inner (fastest-varying) index. -/
def flattenCellsClaimed (cell : Nat → Nat → Nat → Nat) : List Nat :=
  ((List.range 4).map (fun g =>
    ((List.range 3).map (fun p =>
      (List.range 12).map (fun d => cell g d p))).flatten)).flatten

/-- Embedding of `LTC6811::GetVoltageStatus` (src/LTC6811.cpp lines 117-144).
`readFail g` is the `bool` returned by `ReadVoltageRegisterGroup` for register
group `g` (`false` = 0 = success, `true` = 1 = failure, the convention of
`ReadRegisterGroup`).  The source executes
`if (!ReadVoltageRegisterGroup(group)) return std::nullopt;` for the groups in
order A, B, C, D, and aggregates the buffers only if no early return fired. -/
def GetVoltageStatus (readFail : Nat → Bool) (cell : Nat → Nat → Nat → Nat) :
    Option LTC6811VoltageStatus :=
  if readFail 0 = false then none
  else if readFail 1 = false then none
  else if readFail 2 = false then none
  else if readFail 3 = false then none
  else some (voltageScan (flattenCells cell))

/-- Concrete cell data whose unique minimum value 5 sits at register group 0,
device 0, position-in-register 1; every other reading is 9. -/
def cellMinAt001 : Nat → Nat → Nat → Nat := fun g d p =>
  if g == 0 && d == 0 && p == 1 then 5 else 9

/-- Embedding of `LTC6811Register<T>` (src/LTC6811.h lines 32-37) viewed at
byte granularity: a 6-byte data payload plus the 16-bit PEC received or
computed for it. -/
structure LTC6811Register where
  data : List Nat
  PEC : Nat
deriving Repr, DecidableEq

/-- Post-decrement of the `uint8_t current_ic` counter of
`BuildDischargeConfig` (src/LTC6811.cpp line 201): unsigned 8-bit wrap-around
subtraction of 1. -/
def uint8Dec (ic : Nat) : Nat := (ic + 255) % 256

/-- Access `cell_data[g].register_group[ic].data` (the three voltages of one
register) as performed by `BuildDischargeConfig` (src/LTC6811.cpp line 201).
The `register_group` array has exactly `kDaisyChainLength = 12` elements, so
an index of 12 or more is out of bounds and modelled as `none`. -/
def readIC (cell : Nat → Nat → Nat → Nat) (g ic : Nat) : Option (List Nat) :=
  if ic < 12 then some [cell g ic 0, cell g ic 1, cell g ic 2] else none

/-- Inner loop of `BuildDischargeConfig` over the three voltages of one
register (src/LTC6811.cpp lines 201-205): for each voltage strictly above the
threshold, OR bit `current_cell` into `DCCx`; `current_cell` increments once
per voltage.  Returns the updated `(DCCx, current_cell)`. -/
def dccAccum (threshold : Nat) : Nat → Nat → List Nat → Nat × Nat
  | dcc, ccell, [] => (dcc, ccell)
  | dcc, ccell, v :: rest =>
      dccAccum threshold (if threshold < v then dcc ||| (1 <<< ccell) else dcc) (ccell + 1) rest

/-- Middle loop of `BuildDischargeConfig` over the four voltage register
groups for one configuration register (src/LTC6811.cpp lines 200-206),
threading `DCCx`, `current_cell` and the post-decremented `current_ic`. -/
def devicePassGo (cell : Nat → Nat → Nat → Nat) (threshold : Nat) :
    List Nat → Nat → Nat → Nat → Option (Nat × Nat)
  | [], dcc, _, ic => some (dcc, ic)
  | g :: gs, dcc, ccell, ic =>
      match readIC cell g ic with
      | none => none
      | some vs =>
          match dccAccum threshold dcc ccell vs with
          | (dcc2, ccell2) => devicePassGo cell threshold gs dcc2 ccell2 (uint8Dec ic)

/-- One iteration of the outer loop of `BuildDischargeConfig` for a single
configuration register: visit groups A..D starting from register index `ic`,
decrementing `current_ic` after each group access.  Produces the device's
`DCCx` mask and the counter value left for the next device, or `none` if an
out-of-bounds register access occurred. -/
def devicePass (cell : Nat → Nat → Nat → Nat) (threshold ic : Nat) : Option (Nat × Nat) :=
  devicePassGo cell threshold [0, 1, 2, 3] 0 0 ic

/-- Iterate `devicePass` for the given number of configuration registers,
threading `current_ic` across devices exactly as the single `current_ic`
variable of `BuildDischargeConfig` is. -/
def buildMasksGo (cell : Nat → Nat → Nat → Nat) (threshold : Nat) :
    Nat → Nat → Option (List Nat)
  | 0, _ => some []
  | n + 1, ic =>
      match devicePass cell threshold ic with
      | none => none
      | some (dcc, ic2) =>
          match buildMasksGo cell threshold n ic2 with
          | none => none
          | some rest => some (dcc :: rest)

/-- The mask-building pass of `BuildDischargeConfig` under `GTMinPlusDelta` or
`GTMeanPlusDelta` (src/LTC6811.cpp lines 196-206 and 227-237): twelve
configuration registers, with `current_ic` initialised once to
`kDaisyChainLength - 1 = 11`; `none` when some register access leaves the
0..11 bounds. -/
def buildMasks (cell : Nat → Nat → Nat → Nat) (threshold : Nat) : Option (List Nat) :=
  buildMasksGo cell threshold 12 11

/-- The per-device staging step of `BuildDischargeConfig` under
`GTMinPlusDelta`/`GTMeanPlusDelta` (src/LTC6811.cpp lines 208-210 and
239-241): `data[4] |= DCCx & 0xFF; data[5] |= DCCx >> 8 & 0xF;
PEC = PEC15Calc(data)`. -/
def applyDcc (reg : LTC6811Register) (dcc : Nat) : LTC6811Register :=
  let d4 := reg.data.getD 4 0 ||| (dcc &&& 0xFF)
  let d5 := reg.data.getD 5 0 ||| ((dcc >>> 8) &&& 0xF)
  let newdata := (reg.data.set 4 d4).set 5 d5
  { data := newdata, PEC := PEC15Calc newdata }

/-- The staging effect of `BuildDischargeConfig` under `GTMinPlusDelta`
(src/LTC6811.cpp lines 195-212) on the `slave_cfg_tx` register group:
threshold `voltage_status.min + kDelta` with `kDelta = 100`. -/
def buildDischargeGTMin (cell : Nat → Nat → Nat → Nat) (st : LTC6811VoltageStatus)
    (cfg : List LTC6811Register) : Option (List LTC6811Register) :=
  match buildMasks cell (st.min + 100) with
  | none => none
  | some masks => some (List.zipWith applyDcc cfg masks)

/-- The staging effect of `BuildDischargeConfig` under `GTMeanPlusDelta`
(src/LTC6811.cpp lines 224-243): threshold `sum / (12 * kDaisyChainLength)
+ kDelta = sum / 144 + 100`. -/
def buildDischargeGTMean (cell : Nat → Nat → Nat → Nat) (st : LTC6811VoltageStatus)
    (cfg : List LTC6811Register) : Option (List LTC6811Register) :=
  match buildMasks cell (st.sum / 144 + 100) with
  | none => none
  | some masks => some (List.zipWith applyDcc cfg masks)

/-- Concrete cell data: every reading is 1000 except the cell of register
group B (index 1), physical register 11, position 0, which reads 1200.  With
minimum 1000 the `GTMinPlusDelta` threshold is 1100, exceeded only by that
one cell. -/
def cellHot : Nat → Nat → Nat → Nat := fun g d p =>
  if g == 1 && d == 11 && p == 0 then 1200 else 1000

/-- The staging effect of `BuildDischargeConfig` under `MaxOnly`
(src/LTC6811.cpp lines 214-222): when `max - min > kDelta` (int arithmetic),
overwrite bytes 4 and 5 of the configuration register at index
`max_id / 3 % 12` with the single-bit mask `1 << (max_id % 11)` and recompute
that register's PEC; otherwise leave the group untouched. -/
def buildDischargeMaxOnly (st : LTC6811VoltageStatus) (cfg : List LTC6811Register) :
    List LTC6811Register :=
  if (100 : Int) < (st.max : Int) - (st.min : Int) then
    let ic := st.max_id / 3 % 12
    let dcc := (1 <<< (st.max_id % 11)) % 65536
    let reg := cfg.getD ic ⟨[], 0⟩
    let newdata := (reg.data.set 4 (dcc &&& 0xFF)).set 5 ((dcc >>> 8) &&& 0xF)
    cfg.set ic { data := newdata, PEC := PEC15Calc newdata }
  else cfg

/-- Concrete staged configuration whose first register already has bit 1 of
byte 4 set. -/
def cfgC9 : List LTC6811Register :=
  (⟨[0, 0, 0, 0, 2, 0], 0⟩ : LTC6811Register) :: List.replicate 11 ⟨[0, 0, 0, 0, 0, 0], 0⟩

/-- Concrete voltage status with `max - min = 200 > 100` and `max_id = 0`. -/
def stC9 : LTC6811VoltageStatus := ⟨0, 0, 0, 200, 0⟩

/-- Concrete voltage status with `max - min = 200 > 100` and `max_id = 5`
(register index 1, bit position 5). -/
def stC6 : LTC6811VoltageStatus := ⟨0, 0, 0, 200, 5⟩

/-- Twelve all-zero configuration registers. -/
def cfgC6 : List LTC6811Register := List.replicate 12 ⟨[0, 0, 0, 0, 0, 0], 0⟩

/-- Embedding of the `ADCV` command construction in the `LTC6811` constructor
(src/LTC6811.cpp lines 13-27): byte 0 is `0x02 | ((mode & 0x02) >> 1)`,
byte 1 is `((mode & 0x01) << 7) | 0x60 | dcp << 4 | cell`, and bytes 2-3 are
the PEC of the first two bytes, high byte first, each stored in a
`uint8_t`. -/
def buildADCV (mode dcp cellch : Nat) : List Nat :=
  let b0 := (0x02 ||| ((mode &&& 0x02) >>> 1)) % 256
  let b1 := (((mode &&& 0x01) <<< 7) ||| 0x60 ||| (dcp <<< 4) ||| cellch) % 256
  let pec := PEC15Calc [b0, b1]
  [b0, b1, (pec >>> 8) % 256, pec % 256]

/-- Modelled from the claim C7 wording: base `0x0260` with one mode bit
folded into byte 0 at bit position 1 (instead of the source's bit position
0), the other mode bit into byte 1 bit 7, OR'd with the discharge-permission
flag shifted by 4 and the cell-channel selector, and the PEC appended. -/
def buildADCVClaimed (mode dcp cellch : Nat) : List Nat :=
  let b0 := (0x02 ||| (((mode &&& 0x02) >>> 1) <<< 1)) % 256
  let b1 := (((mode &&& 0x01) <<< 7) ||| 0x60 ||| (dcp <<< 4) ||| cellch) % 256
  let pec := PEC15Calc [b0, b1]
  [b0, b1, (pec >>> 8) % 256, pec % 256]

/-- The amended command layout: base `0x0260` with mode bit 1 folded into
byte 0 at bit position 0, mode bit 0 into byte 1 bit 7, OR'd with
`dcp << 4` and the cell-channel selector, and `pec15` of the two opcode
bytes appended high byte first. -/
def buildADCVAmended (mode dcp cellch : Nat) : List Nat :=
  let b0 := (0x02 ||| ((mode >>> 1) &&& 0x01)) % 256
  let b1 := (((mode &&& 0x01) <<< 7) ||| 0x60 ||| (dcp <<< 4) ||| cellch) % 256
  let pec := PEC15Calc [b0, b1]
  [b0, b1, (pec >>> 8) % 256, pec % 256]

/-- The PEC-validation loop of `ReadRegisterGroup` (src/LTC6811.h lines
167-170): return 1 (failure) on the first register whose received PEC
differs from the PEC recomputed over its six data bytes, else 0. -/
def pecScan : List LTC6811Register → Bool
  | [] => false
  | r :: rest => if r.PEC ≠ PEC15Calc r.data then true else pecScan rest

/-- Embedding of `LTC6811::ReadRegisterGroup` (src/LTC6811.h lines 154-172).
`txErr`/`rxErr` are the failure outcomes of the `HAL_SPI_Transmit` and
`HAL_SPI_Receive` transport calls (the spec's binary ok/fail transport
interface); `regs` is the received register buffer.  Returns the source's
`bool` with 0 = success, 1 = failure. -/
def ReadRegisterGroup (txErr rxErr : Bool) (regs : List LTC6811Register) : Bool :=
  if txErr then true
  else if rxErr then true
  else pecScan regs

/-! ### Theorems -/

theorem pec15SpecLoop_eq (bytes : List Nat) :
    ∀ acc : Nat, ((bytes.foldl pecStep acc) <<< 1) % 65536 = pec15SpecLoop acc bytes := by
  induction bytes with
  | nil => intro acc; rfl
  | cons b rest ih =>
      intro acc
      simpa [List.foldl, pecStep, pec15SpecLoop] using ih (pecStep acc b)

/-- C8: For every byte sequence, `PEC15Calc` (the source's PEC15 computation)
equals the value computed by the specification's algorithm: accumulator
initialised to 16, per-byte table-driven update over the fixed 256-entry
vendor table, and a final left shift by one bit.  Both sides are total
computable functions, so the transform is deterministic and never fails. -/
theorem c8_pec15_matches_spec (bytes : List Nat) : PEC15Calc bytes = pec15Spec bytes :=
  pec15SpecLoop_eq bytes 16

/-- C1: evaluation of `GetVoltageStatus` at the failing input.  When every one
of the four register-group reads succeeds (`ReadRegisterGroup` returns `0`),
the function returns `nullopt`; when every read fails (returns `1`), it
returns an aggregated status.  This is the opposite of the claim (and of the
function's own documentation): the `if (!Read...)` test inverts the
`0 = success / 1 = failure` convention of `ReadRegisterGroup`. -/
theorem c1_code_evaluation :
    GetVoltageStatus (fun _ => false) (fun _ _ _ => 0) = none ∧
    (GetVoltageStatus (fun _ => true) (fun _ _ _ => 0)).isSome = true := by
  constructor
  · rfl
  · decide

theorem vscanFrom_sum (vs : List Nat) :
    ∀ s count, (vscanFrom s count vs).sum = s.sum + vs.sum := by
  induction vs with
  | nil => intro s count; simp [vscanFrom]
  | cons v rest ih =>
      intro s count
      rw [vscanFrom, ih]
      unfold vstep
      split <;> (try split) <;> simp <;> omega

theorem vscanFrom_min_stable (vs : List Nat) :
    ∀ s count, (∀ x ∈ vs, s.min ≤ x) →
      (vscanFrom s count vs).min = s.min ∧ (vscanFrom s count vs).min_id = s.min_id := by
  induction vs with
  | nil => intro s count _; exact ⟨rfl, rfl⟩
  | cons v rest ih =>
      intro s count h
      have hv : s.min ≤ v := h v (List.mem_cons_self v rest)
      have hrest : ∀ x ∈ rest, s.min ≤ x := fun x hx => h x (List.mem_cons_of_mem v hx)
      rw [vscanFrom]
      unfold vstep
      split
      · omega
      · split
        · exact ih _ _ hrest
        · exact ih _ _ hrest

theorem vscanFrom_max_stable (vs : List Nat) :
    ∀ s count, (∀ x ∈ vs, x ≤ s.max) →
      (vscanFrom s count vs).max = s.max ∧ (vscanFrom s count vs).max_id = s.max_id := by
  induction vs with
  | nil => intro s count _; exact ⟨rfl, rfl⟩
  | cons v rest ih =>
      intro s count h
      have hv : v ≤ s.max := h v (List.mem_cons_self v rest)
      have hrest : ∀ x ∈ rest, x ≤ s.max := fun x hx => h x (List.mem_cons_of_mem v hx)
      rw [vscanFrom]
      unfold vstep
      split
      · exact ih _ _ hrest
      · split
        · omega
        · exact ih _ _ hrest

theorem vscanFrom_min_found (vs : List Nat) :
    ∀ s count m, m ∈ vs → (∀ x ∈ vs, m ≤ x) → m < s.min →
      (vscanFrom s count vs).min = m ∧
      (vscanFrom s count vs).min_id = count + vs.indexOf m := by
  induction vs with
  | nil => intro s count m hm; exact absurd hm (List.not_mem_nil m)
  | cons v rest ih =>
      intro s count m hm hlb hlt
      by_cases hv : v = m
      · subst hv
        rw [vscanFrom]
        simp only [vstep]
        rw [if_pos hlt]
        have hrest : ∀ x ∈ rest,
            (⟨s.sum + v, v, count, s.max, s.max_id⟩ : LTC6811VoltageStatus).min ≤ x :=
          fun x hx => hlb x (List.mem_cons_of_mem v hx)
        obtain ⟨h1, h2⟩ := vscanFrom_min_stable rest _ (count + 1) hrest
        rw [List.indexOf_cons_self]
        exact ⟨h1, by rw [h2]; simp⟩
      · have hm' : m ∈ rest := by
          rcases List.mem_cons.mp hm with h | h
          · exact absurd h.symm hv
          · exact h
        have hlb' : ∀ x ∈ rest, m ≤ x := fun x hx => hlb x (List.mem_cons_of_mem v hx)
        have hvm : m < v := by
          have h1 := hlb v (List.mem_cons_self v rest)
          omega
        have hidx : (v :: rest).indexOf m = rest.indexOf m + 1 :=
          List.indexOf_cons_ne rest hv
        rw [vscanFrom]
        simp only [vstep]
        by_cases hc1 : v < s.min
        · rw [if_pos hc1]
          obtain ⟨h1, h2⟩ :=
            ih (⟨s.sum + v, v, count, s.max, s.max_id⟩ : LTC6811VoltageStatus)
              (count + 1) m hm' hlb' hvm
          exact ⟨h1, by rw [h2, hidx]; omega⟩
        · rw [if_neg hc1]
          by_cases hc2 : s.max < v
          · rw [if_pos hc2]
            obtain ⟨h1, h2⟩ :=
              ih (⟨s.sum + v, s.min, s.min_id, v, count⟩ : LTC6811VoltageStatus)
                (count + 1) m hm' hlb' hlt
            exact ⟨h1, by rw [h2, hidx]; omega⟩
          · rw [if_neg hc2]
            obtain ⟨h1, h2⟩ :=
              ih (⟨s.sum + v, s.min, s.min_id, s.max, s.max_id⟩ : LTC6811VoltageStatus)
                (count + 1) m hm' hlb' hlt
            exact ⟨h1, by rw [h2, hidx]; omega⟩

theorem vscanFrom_max_found (vs : List Nat) :
    ∀ s count M, M ∈ vs → (∀ x ∈ vs, x ≤ M) → s.max < M → s.min ≤ M →
      (vscanFrom s count vs).max = M ∧
      (vscanFrom s count vs).max_id = count + vs.indexOf M := by
  induction vs with
  | nil => intro s count M hm; exact absurd hm (List.not_mem_nil M)
  | cons v rest ih =>
      intro s count M hm hub hlt hle
      by_cases hv : v = M
      · subst hv
        rw [vscanFrom]
        simp only [vstep]
        rw [if_neg (by omega), if_pos hlt]
        have hrest : ∀ x ∈ rest,
            x ≤ (⟨s.sum + v, s.min, s.min_id, v, count⟩ : LTC6811VoltageStatus).max :=
          fun x hx => hub x (List.mem_cons_of_mem v hx)
        obtain ⟨h1, h2⟩ := vscanFrom_max_stable rest _ (count + 1) hrest
        rw [List.indexOf_cons_self]
        exact ⟨h1, by rw [h2]; simp⟩
      · have hm' : M ∈ rest := by
          rcases List.mem_cons.mp hm with h | h
          · exact absurd h.symm hv
          · exact h
        have hub' : ∀ x ∈ rest, x ≤ M := fun x hx => hub x (List.mem_cons_of_mem v hx)
        have hvM : v < M := by
          have h1 := hub v (List.mem_cons_self v rest)
          omega
        have hidx : (v :: rest).indexOf M = rest.indexOf M + 1 :=
          List.indexOf_cons_ne rest hv
        rw [vscanFrom]
        simp only [vstep]
        by_cases hc1 : v < s.min
        · rw [if_pos hc1]
          obtain ⟨h1, h2⟩ :=
            ih (⟨s.sum + v, v, count, s.max, s.max_id⟩ : LTC6811VoltageStatus)
              (count + 1) M hm' hub' hlt (le_of_lt hvM)
          exact ⟨h1, by rw [h2, hidx]; omega⟩
        · rw [if_neg hc1]
          by_cases hc2 : s.max < v
          · rw [if_pos hc2]
            obtain ⟨h1, h2⟩ :=
              ih (⟨s.sum + v, s.min, s.min_id, v, count⟩ : LTC6811VoltageStatus)
                (count + 1) M hm' hub' hvM hle
            exact ⟨h1, by rw [h2, hidx]; omega⟩
          · rw [if_neg hc2]
            obtain ⟨h1, h2⟩ :=
              ih (⟨s.sum + v, s.min, s.min_id, s.max, s.max_id⟩ : LTC6811VoltageStatus)
                (count + 1) M hm' hub' hlt hle
            exact ⟨h1, by rw [h2, hidx]; omega⟩

theorem foldl_min_le_init (l : List Nat) : ∀ a, l.foldl min a ≤ a := by
  induction l with
  | nil => intro a; exact le_refl a
  | cons b t ih =>
      intro a
      calc t.foldl min (min a b) ≤ min a b := ih _
        _ ≤ a := min_le_left a b

theorem foldl_min_le_mem (l : List Nat) : ∀ a x, x ∈ l → l.foldl min a ≤ x := by
  induction l with
  | nil => intro a x hx; exact absurd hx (List.not_mem_nil x)
  | cons b t ih =>
      intro a x hx
      rcases List.mem_cons.mp hx with h | h
      · subst h
        calc t.foldl min (min a x) ≤ min a x := foldl_min_le_init t _
          _ ≤ x := min_le_right a x
      · exact ih _ x h

theorem foldl_min_mem_or_init (l : List Nat) :
    ∀ a, l.foldl min a = a ∨ l.foldl min a ∈ l := by
  induction l with
  | nil => intro a; exact Or.inl rfl
  | cons b t ih =>
      intro a
      rcases ih (min a b) with h | h
      · rcases Nat.le_total a b with hab | hab
        · rw [List.foldl, h, min_eq_left hab]
          exact Or.inl rfl
        · rw [List.foldl, h, min_eq_right hab]
          exact Or.inr (List.mem_cons_self b t)
      · exact Or.inr (List.mem_cons_of_mem b h)

theorem init_le_foldl_max (l : List Nat) : ∀ a, a ≤ l.foldl max a := by
  induction l with
  | nil => intro a; exact le_refl a
  | cons b t ih =>
      intro a
      calc a ≤ max a b := le_max_left a b
        _ ≤ t.foldl max (max a b) := ih _

theorem le_foldl_max (l : List Nat) : ∀ a x, x ∈ l → x ≤ l.foldl max a := by
  induction l with
  | nil => intro a x hx; exact absurd hx (List.not_mem_nil x)
  | cons b t ih =>
      intro a x hx
      rcases List.mem_cons.mp hx with h | h
      · subst h
        calc x ≤ max a x := le_max_right a x
          _ ≤ t.foldl max (max a x) := init_le_foldl_max t _
      · exact ih _ x h

/-- C4 counterexample: the flattened identity used for `min_id` enumerates
positions-in-register innermost, not devices.  On `cellMinAt001` the scan of
the code's flattening reports `min_id = 1` (group 0, device 0, position 1),
while under the claimed ordering (position middle, device inner) that cell
would be cell number 12. -/
theorem c4_counterexample :
    (voltageScan (flattenCells cellMinAt001)).min_id = 1 ∧
    (flattenCellsClaimed cellMinAt001).indexOf 5 = 12 ∧ (1 : Nat) ≠ 12 := by
  refine ⟨by decide, by decide, by decide⟩

/-- C5 counterexample: a voltage scan over the single reading 5 yields
`max = 0`, not 5: because the `max` test is in an `else if` behind the `min`
test, the first reading updates only `min`, so a single reading does not
become both the minimum and the maximum as the claim states. -/
theorem c5_counterexample :
    (voltageScan [5]).min = 5 ∧ (voltageScan [5]).max = 0 ∧ (0 : Nat) ≠ 5 := by
  refine ⟨rfl, rfl, by decide⟩

/-- C5 as amended: over any nonempty reading list (first reading `v`, rest
`tl`, all values representable in `uint16_t`), the scan's `sum` is the
arithmetic total, its `min` is the true least reading and `min_id` the first
flattened index at which it occurs; and, because the `max` test sits in an
`else` branch behind the `min` test, the `max`/`max_id` tracking only sees a
reading that does not strictly lower the running minimum: whenever the first
reading is below 65535 and the greatest reading also occurs somewhere after
index 0, `max` is the true greatest reading, and (if it is positive)
`max_id` is the first index from 1 onwards at which it occurs. -/
theorem c5_amended (v : Nat) (tl : List Nat) (hbound : ∀ x ∈ v :: tl, x ≤ 65535) :
    (voltageScan (v :: tl)).sum = (v :: tl).sum ∧
    ((voltageScan (v :: tl)).min ∈ v :: tl ∧
      (∀ x ∈ v :: tl, (voltageScan (v :: tl)).min ≤ x)) ∧
    (voltageScan (v :: tl)).min_id = (v :: tl).indexOf (voltageScan (v :: tl)).min ∧
    (v < 65535 → (v :: tl).foldl max 0 ∈ tl →
      ((∀ x ∈ v :: tl, x ≤ (voltageScan (v :: tl)).max) ∧
       (voltageScan (v :: tl)).max ∈ v :: tl ∧
       (0 < (voltageScan (v :: tl)).max →
         (voltageScan (v :: tl)).max_id = 1 + tl.indexOf ((voltageScan (v :: tl)).max)))) := by
  have hsum : (voltageScan (v :: tl)).sum = (v :: tl).sum := by
    rw [voltageScan, vscanFrom_sum]
    simp [initVStatus]
  have hminpack : (voltageScan (v :: tl)).min ∈ v :: tl ∧
      (∀ x ∈ v :: tl, (voltageScan (v :: tl)).min ≤ x) ∧
      (voltageScan (v :: tl)).min_id = (v :: tl).indexOf (voltageScan (v :: tl)).min := by
    by_cases hm65 : (v :: tl).foldl min 65535 = 65535
    · have hall : ∀ x ∈ v :: tl, x = 65535 := by
        intro x hx
        have h1 := foldl_min_le_mem (v :: tl) 65535 x hx
        have h2 := hbound x hx
        omega
      obtain ⟨h1, h2⟩ := vscanFrom_min_stable (v :: tl) initVStatus 0
        (by intro x hx; rw [hall x hx]; rfl)
      rw [voltageScan, h1, h2]
      have hv65 : v = 65535 := hall v (List.mem_cons_self v tl)
      subst hv65
      dsimp only [initVStatus]
      refine ⟨List.mem_cons_self 65535 tl, ?_, ?_⟩
      · intro x hx
        rw [hall x hx]
      · rw [List.indexOf_cons_self]
    · have hmem : (v :: tl).foldl min 65535 ∈ v :: tl := by
        rcases foldl_min_mem_or_init (v :: tl) 65535 with h | h
        · exact absurd h hm65
        · exact h
      have hlb : ∀ x ∈ v :: tl, (v :: tl).foldl min 65535 ≤ x :=
        fun x hx => foldl_min_le_mem (v :: tl) 65535 x hx
      have hlt : (v :: tl).foldl min 65535 < initVStatus.min := by
        have h1 := foldl_min_le_init (v :: tl) 65535
        show (v :: tl).foldl min 65535 < 65535
        omega
      obtain ⟨h1, h2⟩ := vscanFrom_min_found (v :: tl) initVStatus 0
        ((v :: tl).foldl min 65535) hmem hlb hlt
      rw [voltageScan, h1, h2]
      exact ⟨hmem, hlb, by omega⟩
  have hmaxpack : v < 65535 → (v :: tl).foldl max 0 ∈ tl →
      ((∀ x ∈ v :: tl, x ≤ (voltageScan (v :: tl)).max) ∧
       (voltageScan (v :: tl)).max ∈ v :: tl ∧
       (0 < (voltageScan (v :: tl)).max →
         (voltageScan (v :: tl)).max_id = 1 + tl.indexOf ((voltageScan (v :: tl)).max))) := by
    intro hv hMtl
    have hub : ∀ x ∈ v :: tl, x ≤ (v :: tl).foldl max 0 :=
      fun x hx => le_foldl_max (v :: tl) 0 x hx
    have hscan1 : voltageScan (v :: tl) =
        vscanFrom (⟨v, v, 0, 0, 0⟩ : LTC6811VoltageStatus) 1 tl := by
      rw [voltageScan, vscanFrom]
      simp only [vstep, initVStatus]
      rw [if_pos hv]
      simp
    by_cases hM0 : 0 < (v :: tl).foldl max 0
    · have hub' : ∀ x ∈ tl, x ≤ (v :: tl).foldl max 0 :=
        fun x hx => hub x (List.mem_cons_of_mem v hx)
      obtain ⟨h1, h2⟩ := vscanFrom_max_found tl (⟨v, v, 0, 0, 0⟩ : LTC6811VoltageStatus) 1
        ((v :: tl).foldl max 0) hMtl hub' hM0 (hub v (List.mem_cons_self v tl))
      rw [hscan1, h1, h2]
      exact ⟨hub, List.mem_cons_of_mem v hMtl, fun _ => rfl⟩
    · have hM : (v :: tl).foldl max 0 = 0 := by omega
      have hz : ∀ x ∈ tl, x ≤ (0 : Nat) := by
        intro x hx
        have h1 := hub x (List.mem_cons_of_mem v hx)
        omega
      obtain ⟨h1, h2⟩ := vscanFrom_max_stable tl (⟨v, v, 0, 0, 0⟩ : LTC6811VoltageStatus) 1 hz
      rw [hscan1, h1, h2]
      dsimp only
      have hv0 : v = 0 := by
        have h3 := hub v (List.mem_cons_self v tl)
        omega
      subst hv0
      exact ⟨fun x hx => by have h3 := hub x hx; omega,
             List.mem_cons_self 0 tl, fun h => absurd h (by simp)⟩
  exact ⟨hsum, ⟨hminpack.1, hminpack.2.1⟩, hminpack.2.2, hmaxpack⟩

/-- Witness for C5: the scan of the readings 1, 3, 2 satisfies the amended
aggregation contract (sum 6; min 1 first at index 0; max 3 first at index 1). -/
theorem c5_amended_witness :
    (∀ x ∈ [(1 : Nat), 3, 2], x ≤ 65535) ∧
    (voltageScan [1, 3, 2]).sum = [(1 : Nat), 3, 2].sum ∧
    (voltageScan [1, 3, 2]).min_id =
      [(1 : Nat), 3, 2].indexOf (voltageScan [1, 3, 2]).min ∧
    (voltageScan [1, 3, 2]).max_id = 1 + [3, 2].indexOf (voltageScan [1, 3, 2]).max := by
  have h := c5_amended 1 [3, 2] (by decide)
  exact ⟨by decide, h.1, h.2.2.1, (h.2.2.2 (by decide) (by decide)).2.2 (by decide)⟩

theorem flattenCells_eq (cell : Nat → Nat → Nat → Nat) :
    flattenCells cell =
      (List.range 144).map (fun k => cell (k / 36) (k % 36 / 3) (k % 3)) := by
  rfl

/-- C4 as amended: the flattened cell identity used by the scan enumerates
register groups A..D as the outer index, device 0..11 as the middle index,
and position-in-register 0..2 as the inner (fastest-varying) index: the cell
of group `g`, device `d`, position `p` is flattened cell number
`36 * g + 3 * d + p`. -/
theorem c4_amended (cell : Nat → Nat → Nat → Nat) (g d p : Nat)
    (hg : g < 4) (hd : d < 12) (hp : p < 3) :
    (flattenCells cell)[36 * g + 3 * d + p]? = some (cell g d p) := by
  have hlt : 36 * g + 3 * d + p < 144 := by omega
  rw [flattenCells_eq, List.getElem?_map, List.getElem?_range hlt]
  have h1 : (36 * g + 3 * d + p) / 36 = g := by omega
  have h2 : (36 * g + 3 * d + p) % 36 / 3 = d := by omega
  have h3 : (36 * g + 3 * d + p) % 3 = p := by omega
  simp [h1, h2, h3]

/-- Witness for C4: group 1, device 2, position 1 is flattened cell 43. -/
theorem c4_amended_witness :
    (1 : Nat) < 4 ∧ (2 : Nat) < 12 ∧ (1 : Nat) < 3 ∧
    (flattenCells (fun a b c => a * 100 + b * 10 + c))[36 * 1 + 3 * 2 + 1]? =
      some ((fun a b c => a * 100 + b * 10 + c) 1 2 1) :=
  ⟨by decide, by decide, by decide,
    c4_amended (fun a b c => a * 100 + b * 10 + c) 1 2 1 (by decide) (by decide) (by decide)⟩

/-- C3: evaluation of the `BuildDischargeConfig` indexing.  For every cell
data, voltage status and staged configuration, both the `GTMinPlusDelta` and
the `GTMeanPlusDelta` paths fault: `current_ic` starts at 11 and is
decremented once per register group per configuration register (48 times in
all), so after the first three configuration registers consume indices 11
down to 0 it wraps to 255 and the access `register_group[current_ic]` leaves
the 0..11 bounds of the 12-element array — the embedded run yields `none`,
and concretely the fourth device's pass starts at index 255, where the very
first register access is out of bounds. -/
theorem c3_code_evaluation (cell : Nat → Nat → Nat → Nat) (st : LTC6811VoltageStatus)
    (cfg : List LTC6811Register) (thr : Nat) :
    buildDischargeGTMin cell st cfg = none ∧
    buildDischargeGTMean cell st cfg = none ∧
    devicePass cell thr 255 = none ∧
    readIC cell 0 255 = none :=
  ⟨rfl, rfl, rfl, rfl⟩

/-- C2: evaluation of the `GTMinPlusDelta` staging at `cellHot`, where only
the cell (group B, physical register 11, position 0) exceeds min + 100.  The
claim predicts that software device 0 (chain-reversed physical register 11)
gets bit 3 set, mask 8.  Instead the code computes mask 0 for device 0 —
its pass reads groups A, B, C, D from registers 11, 10, 9 and 8 respectively,
never reading register 11's group-B data — leaving `current_ic = 7`, and the
full twelve-device pass faults out of bounds (`none`). -/
theorem c2_code_evaluation :
    devicePass cellHot 1100 11 = some (0, 7) ∧
    buildMasks cellHot 1100 = none ∧ (0 : Nat) ≠ 8 := by
  refine ⟨rfl, rfl, by decide⟩

theorem getD_set_self {α : Type} (l : List α) :
    ∀ (i : Nat) (a d : α), i < l.length → (l.set i a).getD i d = a := by
  induction l with
  | nil => intro i a d h; exact absurd h (by simp)
  | cons b t ih =>
      intro i a d h
      cases i with
      | zero => rfl
      | succ j =>
          have hj : j < t.length := by simpa using h
          simpa [List.set, List.getD] using ih j a d hj

theorem getD_set_of_ne {α : Type} (l : List α) :
    ∀ (i j : Nat) (a d : α), i ≠ j → (l.set i a).getD j d = l.getD j d := by
  induction l with
  | nil => intro i j a d h; rfl
  | cons b t ih =>
      intro i j a d h
      cases i with
      | zero =>
          cases j with
          | zero => exact absurd rfl h
          | succ k => rfl
      | succ i' =>
          cases j with
          | zero => rfl
          | succ k => simpa [List.set, List.getD] using ih i' k a d (by omega)

theorem singleBit_split (k : Nat) (hk : k < 11) :
    (((1 <<< k) % 65536) &&& 0xFF) |||
      ((((1 <<< k) % 65536) >>> 8 &&& 0xF &&& 0xF) <<< 8) = 1 <<< k := by
  interval_cases k <;> decide

/-- C6: under the `MaxOnly` policy, exactly when `max - min` exceeds the
delta of 100 (int arithmetic), the device at index `max_id / 3 % 12` is
staged with exactly one discharge bit at position `max_id % 11` (its 12-bit
mask — byte 4 plus the low nibble of byte 5 shifted by 8 — equals
`1 << (max_id % 11)`), its PEC is recomputed over the new data, and every
other register is untouched; otherwise the staged configuration registers
are left unchanged. -/
theorem c6_max_only (st : LTC6811VoltageStatus) (cfg : List LTC6811Register)
    (hlen : cfg.length = 12) (hdata : ∀ r ∈ cfg, r.data.length = 6) :
    (((100 : Int) < (st.max : Int) - (st.min : Int) →
      (((buildDischargeMaxOnly st cfg).getD (st.max_id / 3 % 12) ⟨[], 0⟩).data.getD 4 0 |||
        ((((buildDischargeMaxOnly st cfg).getD (st.max_id / 3 % 12) ⟨[], 0⟩).data.getD 5 0
          &&& 0xF) <<< 8) = 1 <<< (st.max_id % 11)) ∧
      ((buildDischargeMaxOnly st cfg).getD (st.max_id / 3 % 12) ⟨[], 0⟩).PEC =
        PEC15Calc ((buildDischargeMaxOnly st cfg).getD (st.max_id / 3 % 12) ⟨[], 0⟩).data ∧
      (∀ j, j ≠ st.max_id / 3 % 12 →
        (buildDischargeMaxOnly st cfg).getD j ⟨[], 0⟩ = cfg.getD j ⟨[], 0⟩)) ∧
     (¬ ((100 : Int) < (st.max : Int) - (st.min : Int)) →
        buildDischargeMaxOnly st cfg = cfg)) := by
  constructor
  · intro hcond
    have hic : st.max_id / 3 % 12 < cfg.length := by
      rw [hlen]; exact Nat.mod_lt _ (by norm_num)
    have hmem : cfg.getD (st.max_id / 3 % 12) ⟨[], 0⟩ ∈ cfg := by
      rw [List.getD_eq_getElem cfg _ hic]
      exact List.getElem_mem hic
    have hd6 : (cfg.getD (st.max_id / 3 % 12) ⟨[], 0⟩).data.length = 6 := hdata _ hmem
    have hk : st.max_id % 11 < 11 := Nat.mod_lt _ (by norm_num)
    unfold buildDischargeMaxOnly
    rw [if_pos hcond]
    rw [getD_set_self _ _ _ _ hic]
    refine ⟨?_, rfl, ?_⟩
    · dsimp only
      have h4len : 4 < (cfg.getD (st.max_id / 3 % 12) ⟨[], 0⟩).data.length := by omega
      have h5len : 5 <
          ((cfg.getD (st.max_id / 3 % 12) ⟨[], 0⟩).data.set 4
            (((1 <<< (st.max_id % 11)) % 65536) &&& 0xFF)).length := by
        rw [List.length_set]; omega
      rw [getD_set_self _ 5 _ 0 h5len]
      rw [getD_set_of_ne _ 5 4 _ 0 (by omega)]
      rw [getD_set_self _ 4 _ 0 h4len]
      exact singleBit_split (st.max_id % 11) hk
    · intro j hj
      rw [getD_set_of_ne _ _ _ _ _ (by omega)]
  · intro hcond
    unfold buildDischargeMaxOnly
    rw [if_neg hcond]

/-- C9 as amended: under `GTMinPlusDelta` and `GTMeanPlusDelta`, each
per-device staging step ORs the 12-bit mask onto configuration bytes 4 and 5
(byte 4 takes the low 8 bits, byte 5 bits 0-3 the high 4; every bit already
set stays set), leaves bytes 0-3 unchanged, and recomputes that device's PEC
over the new data; under `MaxOnly`, however, bytes 4 and 5 of the selected
device are overwritten with the single-bit mask regardless of their previous
content. -/
theorem c9_amended :
    (∀ (reg : LTC6811Register) (dcc : Nat), reg.data.length = 6 →
      ((applyDcc reg dcc).data.getD 4 0 = reg.data.getD 4 0 ||| (dcc &&& 0xFF) ∧
       (applyDcc reg dcc).data.getD 5 0 = reg.data.getD 5 0 ||| ((dcc >>> 8) &&& 0xF) ∧
       (∀ j, (reg.data.getD 4 0).testBit j → ((applyDcc reg dcc).data.getD 4 0).testBit j) ∧
       (∀ j, (reg.data.getD 5 0).testBit j → ((applyDcc reg dcc).data.getD 5 0).testBit j) ∧
       (∀ i, i < 4 → (applyDcc reg dcc).data.getD i 0 = reg.data.getD i 0) ∧
       (applyDcc reg dcc).PEC = PEC15Calc (applyDcc reg dcc).data)) ∧
    (∀ (st : LTC6811VoltageStatus) (cfg : List LTC6811Register), cfg.length = 12 →
      (∀ r ∈ cfg, r.data.length = 6) →
      (100 : Int) < (st.max : Int) - (st.min : Int) →
      (((buildDischargeMaxOnly st cfg).getD (st.max_id / 3 % 12) ⟨[], 0⟩).data.getD 4 0 =
        ((1 <<< (st.max_id % 11)) % 65536) &&& 0xFF ∧
       ((buildDischargeMaxOnly st cfg).getD (st.max_id / 3 % 12) ⟨[], 0⟩).data.getD 5 0 =
        ((1 <<< (st.max_id % 11)) % 65536) >>> 8 &&& 0xF)) := by
  constructor
  · intro reg dcc hd6
    have h4len : 4 < reg.data.length := by omega
    have h5len : 5 < (reg.data.set 4 (reg.data.getD 4 0 ||| (dcc &&& 0xFF))).length := by
      rw [List.length_set]; omega
    have h4 : (applyDcc reg dcc).data.getD 4 0 = reg.data.getD 4 0 ||| (dcc &&& 0xFF) := by
      unfold applyDcc
      dsimp only
      rw [getD_set_of_ne _ 5 4 _ 0 (by omega)]
      rw [getD_set_self _ 4 _ 0 h4len]
    have h5 : (applyDcc reg dcc).data.getD 5 0 =
        reg.data.getD 5 0 ||| ((dcc >>> 8) &&& 0xF) := by
      unfold applyDcc
      dsimp only
      rw [getD_set_self _ 5 _ 0 h5len]
    refine ⟨h4, h5, ?_, ?_, ?_, rfl⟩
    · intro j hj
      rw [h4, Nat.testBit_lor, hj]
      rfl
    · intro j hj
      rw [h5, Nat.testBit_lor, hj]
      rfl
    · intro i hi
      unfold applyDcc
      dsimp only
      rw [getD_set_of_ne _ 5 i _ 0 (by omega), getD_set_of_ne _ 4 i _ 0 (by omega)]
  · intro st cfg hlen hdata hcond
    have hic : st.max_id / 3 % 12 < cfg.length := by
      rw [hlen]; exact Nat.mod_lt _ (by norm_num)
    have hmem : cfg.getD (st.max_id / 3 % 12) ⟨[], 0⟩ ∈ cfg := by
      rw [List.getD_eq_getElem cfg _ hic]
      exact List.getElem_mem hic
    have hd6 : (cfg.getD (st.max_id / 3 % 12) ⟨[], 0⟩).data.length = 6 := hdata _ hmem
    have h4len : 4 < (cfg.getD (st.max_id / 3 % 12) ⟨[], 0⟩).data.length := by omega
    have h5len : 5 < ((cfg.getD (st.max_id / 3 % 12) ⟨[], 0⟩).data.set 4
        (((1 <<< (st.max_id % 11)) % 65536) &&& 0xFF)).length := by
      rw [List.length_set]; omega
    unfold buildDischargeMaxOnly
    rw [if_pos hcond]
    rw [getD_set_self _ _ _ _ hic]
    dsimp only
    constructor
    · rw [getD_set_of_ne _ 5 4 _ 0 (by omega), getD_set_self _ 4 _ 0 h4len]
    · rw [getD_set_self _ 5 _ 0 h5len]

/-- C9 counterexample: with bit 1 of byte 4 already staged on device 0 and a
`MaxOnly` call selecting device 0 with mask 1, the resulting byte 4 is 1 —
the pre-existing bit is lost — not the OR value `2 ||| 1 = 3`: the claim's
"OR'd onto (not overwritten over) the existing bits" fails for `MaxOnly`. -/
theorem c9_counterexample :
    ((buildDischargeMaxOnly stC9 cfgC9).getD 0 ⟨[], 0⟩).data.getD 4 0 = 1 ∧
    (1 : Nat) ≠ 2 ||| 1 := by
  refine ⟨rfl, by decide⟩

/-- C7 counterexample: at mode Normal (2), discharge permission 0 and
cell-channel 0, the command built by the source differs from the claimed
layout (byte 0 is `0x03`, but folding a mode bit into byte 0 bit 1 — a bit
already set in the base `0x02` — would leave byte 0 at `0x02`). -/
theorem c7_counterexample : buildADCV 2 0 0 ≠ buildADCVClaimed 2 0 0 := by decide

/-- C7 as amended: for every mode below 4 (covering Fast = 1, Normal = 2,
Filtered = 3), every discharge-permission value and every cell-channel
selector, the built start-cell-voltage-conversion command has byte 0 equal
to `0x02` with mode bit 1 folded into bit 0, byte 1 equal to `0x60` OR'd
with mode bit 0 shifted to bit 7, the discharge-permission flag shifted by
4 and the cell-channel selector, and its trailing two bytes equal to
`pec15` of its first two bytes, high byte first. -/
theorem c7_amended : ∀ m < 4, ∀ d < 2, ∀ c < 7,
    buildADCV m d c = buildADCVAmended m d c ∧
    (buildADCV m d c).drop 2 =
      [((PEC15Calc ((buildADCV m d c).take 2)) >>> 8) % 256,
       (PEC15Calc ((buildADCV m d c).take 2)) % 256] := by decide

/-- Witness for C7: the Normal-mode command with discharge disabled on all
cells. -/
theorem c7_amended_witness :
    (2 : Nat) < 4 ∧ (0 : Nat) < 2 ∧ (0 : Nat) < 7 ∧
    buildADCV 2 0 0 = buildADCVAmended 2 0 0 ∧
    (buildADCV 2 0 0).drop 2 =
      [((PEC15Calc ((buildADCV 2 0 0).take 2)) >>> 8) % 256,
       (PEC15Calc ((buildADCV 2 0 0).take 2)) % 256] :=
  ⟨by decide, by decide, by decide, c7_amended 2 (by decide) 0 (by decide) 0 (by decide)⟩

theorem pecScan_eq_false_iff : ∀ regs : List LTC6811Register,
    (pecScan regs = false ↔ ∀ r ∈ regs, r.PEC = PEC15Calc r.data) := by
  intro regs
  induction regs with
  | nil => simp [pecScan]
  | cons r rest ih =>
      rw [pecScan]
      by_cases h : r.PEC ≠ PEC15Calc r.data
      · rw [if_pos h]
        constructor
        · intro hfalse
          exact absurd hfalse (by decide)
        · intro hall
          exact absurd (hall r (List.mem_cons_self r rest)) h
      · rw [if_neg h]
        push_neg at h
        rw [ih]
        constructor
        · intro hall x hx
          rcases List.mem_cons.mp hx with h1 | h1
          · rw [h1]
            exact h
          · exact hall x h1
        · intro hall x hx
          exact hall x (List.mem_cons_of_mem r hx)

/-- C10: `ReadRegisterGroup` succeeds (returns 0) exactly when both transport
calls succeeded and every received register's PEC equals the PEC recomputed
over its six data bytes; equivalently it fails whenever the transport fails
or any one register's PEC mismatches. -/
theorem c10_read_register_group (txErr rxErr : Bool) (regs : List LTC6811Register) :
    ReadRegisterGroup txErr rxErr regs = false ↔
      (txErr = false ∧ rxErr = false ∧ ∀ r ∈ regs, r.PEC = PEC15Calc r.data) := by
  cases txErr <;> cases rxErr <;>
    simp [ReadRegisterGroup, pecScan_eq_false_iff]

/-- Witness for C6: status `stC6` (max 200, min 0, max_id 5) on twelve
all-zero registers stages the single bit 5 on register 1. -/
theorem c6_max_only_witness :
    ((100 : Int) < (200 : Int) - (0 : Int)) ∧
    (((buildDischargeMaxOnly stC6 cfgC6).getD (5 / 3 % 12) ⟨[], 0⟩).data.getD 4 0 |||
      ((((buildDischargeMaxOnly stC6 cfgC6).getD (5 / 3 % 12) ⟨[], 0⟩).data.getD 5 0
        &&& 0xF) <<< 8) = 1 <<< (5 % 11)) := by
  have h := c6_max_only stC6 cfgC6 (by decide) (by decide)
  exact ⟨by decide, (h.1 (by decide)).1⟩

/-- Witness for C9: ORing mask 1 onto a register whose byte 4 is 2 yields
`2 ||| 1`, and the PEC is recomputed over the new data. -/
theorem c9_amended_witness :
    ((⟨[0, 0, 0, 0, 2, 0], 7⟩ : LTC6811Register).data.length = 6) ∧
    (applyDcc ⟨[0, 0, 0, 0, 2, 0], 7⟩ 1).data.getD 4 0 =
      (⟨[0, 0, 0, 0, 2, 0], 7⟩ : LTC6811Register).data.getD 4 0 ||| (1 &&& 0xFF) ∧
    (applyDcc ⟨[0, 0, 0, 0, 2, 0], 7⟩ 1).PEC =
      PEC15Calc (applyDcc ⟨[0, 0, 0, 0, 2, 0], 7⟩ 1).data :=
  ⟨rfl, (c9_amended.1 ⟨[0, 0, 0, 0, 2, 0], 7⟩ 1 rfl).1,
    (c9_amended.1 ⟨[0, 0, 0, 0, 2, 0], 7⟩ 1 rfl).2.2.2.2.2⟩
